import Mathlib

/-!
ConPty: Windows pseudo console bindings (`pty_windows.go`)

A shallow embedding of `pty_windows.go`.

* `uintptr` is a natural number taken modulo `2 ^ w`, where `w` is the pointer
  width of the target (32 or 64).
* `int16` arguments are integers in `[-2^15, 2^15)`, `uint16` arguments are
  naturals below `2^16`; the range is a hypothesis of the theorems.
* The Go `error` interface is `Option GoErr`; `none` is `nil`.
* `*os.File` is `Option File`; `none` is the nil pointer.
* The operating system is an oracle `OS`: every native entry point answers as
  a function of the calls made so far and of its arguments.  The code threads
  the list of calls made so far (oldest first) through every operation.
-/

namespace Pty

/-- Values of `windows.Handle`, which is a `uintptr`. -/
abbrev Handle := Nat

/-- Non-nil values of the Go `error` interface that occur in this package. -/
inductive GoErr where
  /-- A `syscall.Errno`, as built from `GetLastError`. -/
  | errno (code : Nat)
  /-- Any other error value handed back by a library call. -/
  | other (tag : Nat)
  /-- The value of
  `fmt.Errorf("failed to create pseudo console: %d, %v", uintptr(c.hpCon), err)`. -/
  | createFailed (hpCon : Nat) (inner : GoErr)
  deriving DecidableEq, Repr

/-- The Go `error` interface: `none` is `nil`. -/
abbrev Error := Option GoErr

/-- An `os.File`: the handle it wraps and its name. -/
structure File where
  fd : Nat
  name : String
  deriving DecidableEq, Repr

/-- One call that leaves the package: a native entry point or a method of
`*os.File`. -/
inductive Call where
  /-- The call `windows.CreatePipe(&r, &w, nil, 0)`. -/
  | createPipe
  /-- The call `procCreatePseudoConsole.Call(consoleSize, ptyIn, ptyOut, 0, &hpCon)`. -/
  | procCreatePseudoConsole (consoleSize ptyIn ptyOut : Nat)
  /-- The call `procResizePseudoConsole.Call(handle, consoleSize)`. -/
  | procResizePseudoConsole (handle consoleSize : Nat)
  /-- The call `procClosePseudoConsole.Call(handle)`. -/
  | procClosePseudoConsole (handle : Nat)
  /-- The call `windows.CloseHandle(h)`. -/
  | closeHandle (h : Handle)
  /-- The method call `f.Close()` on a `*os.File`. -/
  | fileClose (f : Option File)
  deriving DecidableEq, Repr

/-- The operating system as an oracle.  Each field receives the calls made
before this one and the arguments of this one. -/
structure OS where
  /-- Answer of `windows.CreatePipe`: read handle, write handle, error. -/
  createPipe : List Call → Handle × Handle × Error
  /-- Answer of `procCreatePseudoConsole.Call`: `r1`, `e1` and the value left
  in `*hpCon` (which held `old` before the call). -/
  callCreate : List Call → (consoleSize ptyIn ptyOut old : Nat) → Nat × Error × Handle
  /-- Answer of `procResizePseudoConsole.Call`: `r1` and `e1`. -/
  callResize : List Call → (handle consoleSize : Nat) → Nat × Error
  /-- Answer of `procClosePseudoConsole.Call`: `r1` and `e1`. -/
  callClose : List Call → (handle : Nat) → Nat × Error

/-- The contract of `(*LazyProc).Call`: the error it returns is built from
`GetLastError` and is never nil. -/
def OS.CallErrNonNil (os : OS) : Prop :=
  (∀ tr s i o old, (os.callCreate tr s i o old).2.1 ≠ none) ∧
  (∀ tr h s, (os.callResize tr h s).2 ≠ none) ∧
  (∀ tr h, (os.callClose tr h).2 ≠ none)

/-- Conversion of a signed integer to `uintptr` of width `w`: the value
modulo `2 ^ w` (sign extension for a negative `int16`). -/
def uintptrOfInt (w : Nat) (n : Int) : Nat := (n % (2 : Int) ^ w).toNat

/-- Conversion of an unsigned integer to `uintptr` of width `w`. -/
def uintptrOfNat (w : Nat) (n : Nat) : Nat := n % 2 ^ w

/-- Left shift `x << k` on `uintptr` of width `w`. -/
def uintptrShl (w : Nat) (x k : Nat) : Nat := (x <<< k) % 2 ^ w

/-- Addition `x + y` on `uintptr` of width `w`. -/
def uintptrAdd (w : Nat) (x y : Nat) : Nat := (x + y) % 2 ^ w

/-- Conversion `uint16(n)` of a signed integer: its 16-bit two's-complement
pattern. -/
def uint16OfInt (n : Int) : Nat := (n % 65536).toNat

/-- The constant `windows.InvalidHandle`, `^Handle(0)`. -/
def InvalidHandle (w : Nat) : Handle := 2 ^ w - 1

/-- The function `os.NewFile` on Windows: nil for the invalid handle, else a
file wrapping the handle. -/
def NewFile (w : Nat) (fd : Nat) (name : String) : Option File :=
  if fd = InvalidHandle w then none else some ⟨fd, name⟩

/-- ConPty represents a windows pseudo console. -/
structure ConPty where
  hpCon : Handle
  pipeFdIn : Handle
  pipeFdOut : Handle
  consoleSize : Nat
  inPipe : Option File
  outPipe : Option File
  deriving DecidableEq, Repr

/-- The function `createPseudoConsole`: returns the error, the value left in
`*hpCon`, and the calls made so far. -/
def createPseudoConsole (os : OS) (consoleSize : Nat) (ptyIn ptyOut : Handle)
    (hpCon : Handle) (tr : List Call) : Error × Handle × List Call :=
  let r := os.callCreate tr consoleSize ptyIn ptyOut hpCon
  let r1 := r.1
  let e1 := r.2.1
  let tr1 := tr ++ [Call.procCreatePseudoConsole consoleSize ptyIn ptyOut]
  if r1 ≠ 0 then (e1, r.2.2, tr1) else (none, r.2.2, tr1)

/-- The function `resizePseudoConsole`. -/
def resizePseudoConsole (os : OS) (handle : Handle) (consoleSize : Nat)
    (tr : List Call) : Error × List Call :=
  let r := os.callResize tr handle consoleSize
  let r1 := r.1
  let e1 := r.2
  let tr1 := tr ++ [Call.procResizePseudoConsole handle consoleSize]
  if r1 ≠ 0 then (e1, tr1) else (none, tr1)

/-- The function `closePseudoConsole`. -/
def closePseudoConsole (os : OS) (handle : Handle) (tr : List Call) :
    Error × List Call :=
  let r := os.callClose tr handle
  let r1 := r.1
  let e1 := r.2
  let tr1 := tr ++ [Call.procClosePseudoConsole handle]
  if r1 = 0 then (e1, tr1) else (none, tr1)

/-- The method `(*ConPty).createPseudoConsoleAndPipes`: returns the error, the
receiver after the call, and the calls made so far. -/
def ConPty.createPseudoConsoleAndPipes (os : OS) (w : Nat) (c : ConPty)
    (tr : List Call) : Error × ConPty × List Call :=
  -- windows.CreatePipe(&hPipeInR, &hPipeInW, nil, 0)
  let p1 := os.createPipe tr
  let hPipeInR := p1.1
  let hPipeInW := p1.2.1
  let tr1 := tr ++ [Call.createPipe]
  match p1.2.2 with
  | some err => (some err, c, tr1)
  | none =>
    -- windows.CreatePipe(&c.pipeFdOut, &c.pipeFdIn, nil, 0)
    let p2 := os.createPipe tr1
    let c1 : ConPty := { c with pipeFdOut := p2.1, pipeFdIn := p2.2.1 }
    let tr2 := tr1 ++ [Call.createPipe]
    match p2.2.2 with
    | some err => (some err, c1, tr2)
    | none =>
      let r := createPseudoConsole os c1.consoleSize hPipeInR c1.pipeFdIn c1.hpCon tr2
      let c2 : ConPty := { c1 with hpCon := r.2.1 }
      let tr3 := r.2.2
      match r.1 with
      | some err => (some (GoErr.createFailed c2.hpCon err), c2, tr3)
      | none =>
        let tr4 := if hPipeInR ≠ InvalidHandle w then tr3 ++ [Call.closeHandle hPipeInR] else tr3
        let tr5 := if hPipeInW ≠ InvalidHandle w then tr4 ++ [Call.closeHandle hPipeInW] else tr4
        let c3 : ConPty := { c2 with inPipe := NewFile w c2.pipeFdIn "|0" }
        let c4 : ConPty := { c3 with outPipe := NewFile w c3.pipeFdOut "|1" }
        (none, c4, tr5)

/-- New returns a new ConPty pseudo terminal device. -/
def New (os : OS) (w : Nat) (columns rows : Int) (tr : List Call) :
    ConPty × Error × List Call :=
  let c : ConPty :=
    { hpCon := 0, pipeFdIn := 0, pipeFdOut := 0,
      consoleSize := uintptrAdd w (uintptrOfInt w columns) (uintptrShl w (uintptrOfInt w rows) 16),
      inPipe := none, outPipe := none }
  let r := c.createPseudoConsoleAndPipes os w tr
  (r.2.1, r.1, r.2.2)

/-- Close closes the pseudo-terminal and cleans up all attached resources. -/
def ConPty.Close (os : OS) (c : ConPty) (tr : List Call) : Error × List Call :=
  let r := closePseudoConsole os c.hpCon tr
  let err := r.1
  let tr1 := r.2 ++ [Call.fileClose c.inPipe]
  let tr2 := tr1 ++ [Call.fileClose c.outPipe]
  (err, tr2)

/-- OutPipe returns the output pipe of the pseudo terminal; the second
component is the receiver after the call. -/
def ConPty.OutPipe (c : ConPty) : Option File × ConPty := (c.outPipe, c)

/-- InPipe returns input pipe of the pseudo terminal; the second component is
the receiver after the call. -/
def ConPty.InPipe (c : ConPty) : Option File × ConPty := (c.inPipe, c)

/-- The method `(*ConPty).Resize`. -/
def ConPty.Resize (os : OS) (w : Nat) (c : ConPty) (cols rows : Nat)
    (tr : List Call) : Error × List Call :=
  resizePseudoConsole os c.hpCon
    (uintptrAdd w (uintptrOfNat w cols) (uintptrShl w (uintptrOfNat w rows) 16)) tr

/-- A sample operating system: the first pipe is `(10, 11)`, the second
`(20, 21)`, every native call succeeds with last error 0, and the new pseudo
console has handle 99. -/
def sampleOS : OS where
  createPipe := fun tr => if tr.length = 0 then (10, 11, none) else (20, 21, none)
  callCreate := fun _ _ _ _ _ => (0, some (GoErr.errno 0), 99)
  callResize := fun _ _ _ => (0, some (GoErr.errno 0))
  callClose := fun _ _ => (1, some (GoErr.errno 0))

/-- The ConPty that `New sampleOS 64 80 24` returns. -/
def sampleConPty : ConPty :=
  { hpCon := 99, pipeFdIn := 21, pipeFdOut := 20, consoleSize := 1572944,
    inPipe := some ⟨21, "|0"⟩, outPipe := some ⟨20, "|1"⟩ }

/-! ## Arithmetic of the size word -/

theorem uintptr_pack_nat (w cols rows : Nat) (hw : w = 32 ∨ w = 64)
    (hc : cols < 65536) (hr : rows < 65536) :
    uintptrAdd w (uintptrOfNat w cols) (uintptrShl w (uintptrOfNat w rows) 16)
      = cols + 65536 * rows := by
  unfold uintptrAdd uintptrOfNat uintptrShl
  rw [Nat.shiftLeft_eq]
  rcases hw with rfl | rfl <;> norm_num <;> omega

theorem uintptrOfInt_nonneg (w : Nat) (n : Int) (hw : w = 32 ∨ w = 64)
    (h0 : 0 ≤ n) (h1 : n < 32768) : uintptrOfInt w n = n.toNat := by
  unfold uintptrOfInt
  rcases hw with rfl | rfl <;> norm_num <;> congr 1 <;> omega

theorem uintptr_pack_int (w : Nat) (columns rows : Int) (hw : w = 32 ∨ w = 64)
    (hc0 : 0 ≤ columns) (hc1 : columns < 32768) (hr0 : 0 ≤ rows) (hr1 : rows < 32768) :
    uintptrAdd w (uintptrOfInt w columns) (uintptrShl w (uintptrOfInt w rows) 16)
      = columns.toNat + 65536 * rows.toNat := by
  rw [uintptrOfInt_nonneg w columns hw hc0 hc1, uintptrOfInt_nonneg w rows hw hr0 hr1]
  have h := uintptr_pack_nat w columns.toNat rows.toNat hw (by omega) (by omega)
  unfold uintptrOfNat at h
  have e1 : columns.toNat % 2 ^ w = columns.toNat := by
    rcases hw with rfl | rfl <;> norm_num <;> omega
  have e2 : rows.toNat % 2 ^ w = rows.toNat := by
    rcases hw with rfl | rfl <;> norm_num <;> omega
  rw [e1, e2] at h
  exact h

theorem uint16OfInt_nonneg (n : Int) (h0 : 0 ≤ n) (h1 : n < 32768) :
    uint16OfInt n = n.toNat := by
  unfold uint16OfInt
  congr 1
  omega

/-! ## Facts about `createPseudoConsoleAndPipes` -/

theorem cpcap_consoleSize (os : OS) (w : Nat) (c : ConPty) (tr : List Call) :
    (c.createPseudoConsoleAndPipes os w tr).2.1.consoleSize = c.consoleSize := by
  unfold ConPty.createPseudoConsoleAndPipes
  simp only
  split
  · rfl
  · split
    · rfl
    · split <;> rfl

theorem createPseudoConsole_trace (os : OS) (s : Nat) (i o old : Handle) (tr : List Call) :
    (createPseudoConsole os s i o old tr).2.2
      = tr ++ [Call.procCreatePseudoConsole s i o] := by
  unfold createPseudoConsole
  simp only
  split <;> rfl

/-- The calls `createPseudoConsoleAndPipes` adds: at most one call of
`CreatePseudoConsole`, with the stored size, the read end of the first pipe
and the write end of the second; it is made as soon as both pipes exist. -/
theorem cpcap_trace (os : OS) (w : Nat) (c : ConPty) (tr : List Call) :
    ∃ evs : List Call,
      (c.createPseudoConsoleAndPipes os w tr).2.2 = tr ++ evs ∧
      (∀ s i o, Call.procCreatePseudoConsole s i o ∈ evs →
        s = c.consoleSize ∧ i = (os.createPipe tr).1 ∧
          o = (os.createPipe (tr ++ [Call.createPipe])).2.1) ∧
      ((os.createPipe tr).2.2 = none →
        (os.createPipe (tr ++ [Call.createPipe])).2.2 = none →
        evs.take 3 = [Call.createPipe, Call.createPipe,
          Call.procCreatePseudoConsole c.consoleSize (os.createPipe tr).1
            (os.createPipe (tr ++ [Call.createPipe])).2.1]) := by
  unfold ConPty.createPseudoConsoleAndPipes
  simp only [createPseudoConsole_trace]
  split
  · rename_i err h1
    exact ⟨[Call.createPipe], rfl, by simp, by simp [h1]⟩
  · split
    · rename_i h1 err h2
      refine ⟨[Call.createPipe, Call.createPipe], by simp, by simp, ?_⟩
      intro _ h
      simp [h2] at h
    · split
      · exact ⟨[Call.createPipe, Call.createPipe,
          Call.procCreatePseudoConsole c.consoleSize (os.createPipe tr).1
            (os.createPipe (tr ++ [Call.createPipe])).2.1], by simp, by simp, by simp⟩
      · by_cases hR : (os.createPipe tr).1 = InvalidHandle w <;>
          by_cases hW : (os.createPipe tr).2.1 = InvalidHandle w
        · exact ⟨[Call.createPipe, Call.createPipe,
            Call.procCreatePseudoConsole c.consoleSize (os.createPipe tr).1
              (os.createPipe (tr ++ [Call.createPipe])).2.1], by simp [hR, hW], by simp,
            by simp⟩
        · exact ⟨[Call.createPipe, Call.createPipe,
            Call.procCreatePseudoConsole c.consoleSize (os.createPipe tr).1
              (os.createPipe (tr ++ [Call.createPipe])).2.1,
            Call.closeHandle (os.createPipe tr).2.1], by simp [hR, hW], by simp, by simp⟩
        · exact ⟨[Call.createPipe, Call.createPipe,
            Call.procCreatePseudoConsole c.consoleSize (os.createPipe tr).1
              (os.createPipe (tr ++ [Call.createPipe])).2.1,
            Call.closeHandle (os.createPipe tr).1], by simp [hR, hW], by simp, by simp⟩
        · exact ⟨[Call.createPipe, Call.createPipe,
            Call.procCreatePseudoConsole c.consoleSize (os.createPipe tr).1
              (os.createPipe (tr ++ [Call.createPipe])).2.1,
            Call.closeHandle (os.createPipe tr).1,
            Call.closeHandle (os.createPipe tr).2.1], by simp [hR, hW], by simp, by simp⟩

/-- What a nil error of `createPseudoConsoleAndPipes` implies: both pipes were
created, and the receiver holds the two ends of the second pipe and the files
wrapping them. -/
theorem cpcap_success (os : OS) (w : Nat) (c : ConPty) (tr : List Call)
    (h : (c.createPseudoConsoleAndPipes os w tr).1 = none) :
    (os.createPipe tr).2.2 = none ∧
      (os.createPipe (tr ++ [Call.createPipe])).2.2 = none ∧
      (c.createPseudoConsoleAndPipes os w tr).2.1.pipeFdOut
        = (os.createPipe (tr ++ [Call.createPipe])).1 ∧
      (c.createPseudoConsoleAndPipes os w tr).2.1.pipeFdIn
        = (os.createPipe (tr ++ [Call.createPipe])).2.1 ∧
      (c.createPseudoConsoleAndPipes os w tr).2.1.inPipe
        = NewFile w (os.createPipe (tr ++ [Call.createPipe])).2.1 "|0" ∧
      (c.createPseudoConsoleAndPipes os w tr).2.1.outPipe
        = NewFile w (os.createPipe (tr ++ [Call.createPipe])).1 "|1" := by
  unfold ConPty.createPseudoConsoleAndPipes at h ⊢
  simp only at h ⊢
  split at h
  · simp at h
  · rename_i h1
    split at h
    · simp at h
    · rename_i h2
      split at h
      · simp at h
      · rename_i h3
        simp only [h1, h2, h3]
        simp

/-- C1. For `uint16` arguments, the size word `Resize` hands to
`ResizePseudoConsole` is `cols + 65536 * rows`, without wrap-around on 32-bit
and 64-bit targets; it is below `2 ^ 32`, its low 16 bits are `cols`, its bits
16..31 are `rows`, and two argument pairs that make `Resize` issue the same
call are equal. -/
theorem resize_size_word (os : OS) (w : Nat) (c : ConPty) (cols rows : Nat)
    (tr : List Call) (hw : w = 32 ∨ w = 64) (hc : cols < 65536) (hr : rows < 65536) :
    (c.Resize os w cols rows tr).2
        = tr ++ [Call.procResizePseudoConsole c.hpCon (cols + 65536 * rows)] ∧
      cols + 65536 * rows < 2 ^ 32 ∧
      (cols + 65536 * rows) % 65536 = cols ∧
      (cols + 65536 * rows) / 65536 % 65536 = rows ∧
      ∀ cols2 rows2 : Nat, cols2 < 65536 → rows2 < 65536 →
        (c.Resize os w cols2 rows2 tr).2 = (c.Resize os w cols rows tr).2 →
        cols2 = cols ∧ rows2 = rows := by
  have key : ∀ a b : Nat, a < 65536 → b < 65536 →
      (c.Resize os w a b tr).2
        = tr ++ [Call.procResizePseudoConsole c.hpCon (a + 65536 * b)] := by
    intro a b ha hb
    unfold ConPty.Resize resizePseudoConsole
    rw [uintptr_pack_nat w a b hw ha hb]
    simp only
    split <;> rfl
  refine ⟨key cols rows hc hr, by omega, by omega, by omega, ?_⟩
  intro cols2 rows2 hc2 hr2 heq
  rw [key cols rows hc hr, key cols2 rows2 hc2 hr2] at heq
  have h := List.append_cancel_left heq
  simp only [List.cons.injEq, Call.procResizePseudoConsole.injEq, and_true, true_and] at h
  omega

theorem resize_size_word_witness :
    (sampleConPty.Resize sampleOS 64 120 40 []).2
        = [] ++ [Call.procResizePseudoConsole sampleConPty.hpCon (120 + 65536 * 40)] ∧
      120 + 65536 * 40 < 2 ^ 32 ∧
      (120 + 65536 * 40) % 65536 = 120 ∧
      (120 + 65536 * 40) / 65536 % 65536 = 40 ∧
      ∀ cols2 rows2 : Nat, cols2 < 65536 → rows2 < 65536 →
        (sampleConPty.Resize sampleOS 64 cols2 rows2 []).2
          = (sampleConPty.Resize sampleOS 64 120 40 []).2 →
        cols2 = 120 ∧ rows2 = 40 :=
  resize_size_word sampleOS 64 sampleConPty 120 40 [] (by decide) (by decide) (by decide)

/-- C2. For `int16` arguments `columns >= 0` and `rows >= 0`, `New` stores
`consoleSize = columns + 65536 * rows` in the ConPty it returns; the low 16
bits of that word are `columns`, its bits 16..31 are `rows`; it is the word
`Resize(uint16(columns), uint16(rows))` passes to the OS; every call of
`CreatePseudoConsole` that `New` makes has it as first argument, and that call
is made as soon as both pipes are created. -/
theorem new_console_size (os : OS) (w : Nat) (columns rows : Int) (tr : List Call)
    (hw : w = 32 ∨ w = 64) (hc0 : 0 ≤ columns) (hc1 : columns < 32768)
    (hr0 : 0 ≤ rows) (hr1 : rows < 32768) :
    ((New os w columns rows tr).1.consoleSize : Int) = columns + 65536 * rows ∧
      (((New os w columns rows tr).1.consoleSize % 65536 : Nat) : Int) = columns ∧
      (((New os w columns rows tr).1.consoleSize / 65536 % 65536 : Nat) : Int) = rows ∧
      (∀ (c : ConPty) (tr2 : List Call),
        (c.Resize os w (uint16OfInt columns) (uint16OfInt rows) tr2).2
          = tr2 ++ [Call.procResizePseudoConsole c.hpCon
              (New os w columns rows tr).1.consoleSize]) ∧
      ∃ evs : List Call, (New os w columns rows tr).2.2 = tr ++ evs ∧
        (∀ s i o, Call.procCreatePseudoConsole s i o ∈ evs →
          s = (New os w columns rows tr).1.consoleSize) ∧
        ((os.createPipe tr).2.2 = none →
          (os.createPipe (tr ++ [Call.createPipe])).2.2 = none →
          evs.take 3 = [Call.createPipe, Call.createPipe,
            Call.procCreatePseudoConsole (New os w columns rows tr).1.consoleSize
              (os.createPipe tr).1 (os.createPipe (tr ++ [Call.createPipe])).2.1]) := by
  have hsize : (New os w columns rows tr).1.consoleSize
      = columns.toNat + 65536 * rows.toNat := by
    unfold New
    simp only [cpcap_consoleSize]
    exact uintptr_pack_int w columns rows hw hc0 hc1 hr0 hr1
  refine ⟨by rw [hsize]; omega, by rw [hsize]; omega, by rw [hsize]; omega, ?_, ?_⟩
  · intro c tr2
    rw [hsize, uint16OfInt_nonneg columns hc0 hc1, uint16OfInt_nonneg rows hr0 hr1]
    exact (resize_size_word os w c columns.toNat rows.toNat tr2 hw (by omega) (by omega)).1
  · obtain ⟨evs, h1, h2, h3⟩ := cpcap_trace os w
      { hpCon := 0, pipeFdIn := 0, pipeFdOut := 0,
        consoleSize := uintptrAdd w (uintptrOfInt w columns)
          (uintptrShl w (uintptrOfInt w rows) 16),
        inPipe := none, outPipe := none } tr
    have hcs : (New os w columns rows tr).1.consoleSize
        = uintptrAdd w (uintptrOfInt w columns) (uintptrShl w (uintptrOfInt w rows) 16) := by
      unfold New
      simp only [cpcap_consoleSize]
    refine ⟨evs, h1, ?_, ?_⟩
    · intro s i o hm
      rw [hcs]
      exact (h2 s i o hm).1
    · intro hp1 hp2
      rw [hcs]
      exact h3 hp1 hp2

theorem new_console_size_witness :
    ((New sampleOS 64 80 24 []).1.consoleSize : Int) = 80 + 65536 * 24 ∧
      (((New sampleOS 64 80 24 []).1.consoleSize % 65536 : Nat) : Int) = 80 ∧
      (((New sampleOS 64 80 24 []).1.consoleSize / 65536 % 65536 : Nat) : Int) = 24 ∧
      (∀ (c : ConPty) (tr2 : List Call),
        (c.Resize sampleOS 64 (uint16OfInt 80) (uint16OfInt 24) tr2).2
          = tr2 ++ [Call.procResizePseudoConsole c.hpCon
              (New sampleOS 64 80 24 []).1.consoleSize]) ∧
      ∃ evs : List Call, (New sampleOS 64 80 24 []).2.2 = [] ++ evs ∧
        (∀ s i o, Call.procCreatePseudoConsole s i o ∈ evs →
          s = (New sampleOS 64 80 24 []).1.consoleSize) ∧
        ((sampleOS.createPipe []).2.2 = none →
          (sampleOS.createPipe ([] ++ [Call.createPipe])).2.2 = none →
          evs.take 3 = [Call.createPipe, Call.createPipe,
            Call.procCreatePseudoConsole (New sampleOS 64 80 24 []).1.consoleSize
              (sampleOS.createPipe []).1
              (sampleOS.createPipe ([] ++ [Call.createPipe])).2.1]) :=
  new_console_size sampleOS 64 80 24 [] (by decide) (by decide) (by decide) (by decide)
    (by decide)

/-- C3. For every ConPty and every answer of `ClosePseudoConsole`, `Close`
calls `ClosePseudoConsole` on `hpCon`, then `Close` on `inPipe`, then `Close`
on `outPipe`; the two files are closed also when closing the pseudo console
reports an error, and the error `Close` returns is the one
`closePseudoConsole` returned. -/
theorem close_closes_console_then_pipes (os : OS) (c : ConPty) (tr : List Call) :
    (c.Close os tr).2 = tr ++ [Call.procClosePseudoConsole c.hpCon,
        Call.fileClose c.inPipe, Call.fileClose c.outPipe] ∧
      (closePseudoConsole os c.hpCon tr).2 = tr ++ [Call.procClosePseudoConsole c.hpCon] ∧
      (c.Close os tr).1 = (closePseudoConsole os c.hpCon tr).1 ∧
      (∀ e : GoErr, (closePseudoConsole os c.hpCon tr).1 = some e →
        (c.Close os tr).1 = some e ∧
        Call.fileClose c.inPipe ∈ (c.Close os tr).2 ∧
        Call.fileClose c.outPipe ∈ (c.Close os tr).2) := by
  have htr : (closePseudoConsole os c.hpCon tr).2
      = tr ++ [Call.procClosePseudoConsole c.hpCon] := by
    unfold closePseudoConsole
    simp only
    split <;> rfl
  have hcl : (c.Close os tr).2 = tr ++ [Call.procClosePseudoConsole c.hpCon,
      Call.fileClose c.inPipe, Call.fileClose c.outPipe] := by
    unfold ConPty.Close
    simp only [htr]
    simp
  refine ⟨hcl, htr, rfl, ?_⟩
  intro e he
  refine ⟨he, ?_, ?_⟩
  · rw [hcl]; simp
  · rw [hcl]; simp

/-- C5. After a successful `New` (nil error, valid read handle), the file
`OutPipe()` returns wraps `pipeFdOut`, the read end of the second pipe, whose
write end `pipeFdIn` was passed to `CreatePseudoConsole` as `ptyOut`; calling
`OutPipe()` leaves the ConPty unchanged and gives the same file again. -/
theorem outPipe_is_read_end (os : OS) (w : Nat) (columns rows : Int) (tr : List Call)
    (hok : (New os w columns rows tr).2.1 = none)
    (hvalid : (os.createPipe (tr ++ [Call.createPipe])).1 ≠ InvalidHandle w) :
    (New os w columns rows tr).1.pipeFdOut = (os.createPipe (tr ++ [Call.createPipe])).1 ∧
      (New os w columns rows tr).1.pipeFdIn = (os.createPipe (tr ++ [Call.createPipe])).2.1 ∧
      (New os w columns rows tr).1.OutPipe
        = (some ⟨(New os w columns rows tr).1.pipeFdOut, "|1"⟩, (New os w columns rows tr).1) ∧
      (∃ evs : List Call, (New os w columns rows tr).2.2 = tr ++ evs ∧
        evs.take 3 = [Call.createPipe, Call.createPipe,
          Call.procCreatePseudoConsole (New os w columns rows tr).1.consoleSize
            (os.createPipe tr).1 (New os w columns rows tr).1.pipeFdIn] ∧
        ∀ s i o, Call.procCreatePseudoConsole s i o ∈ evs →
          o = (New os w columns rows tr).1.pipeFdIn) ∧
      (New os w columns rows tr).1.OutPipe.2.OutPipe = (New os w columns rows tr).1.OutPipe := by
  unfold New at hok ⊢
  simp only at hok ⊢
  obtain ⟨hp1, hp2, hOut, hIn, _, hOutPipe⟩ := cpcap_success os w _ tr hok
  obtain ⟨evs, h1, h2, h3⟩ := cpcap_trace os w
      { hpCon := 0, pipeFdIn := 0, pipeFdOut := 0,
        consoleSize := uintptrAdd w (uintptrOfInt w columns)
          (uintptrShl w (uintptrOfInt w rows) 16),
        inPipe := none, outPipe := none } tr
  refine ⟨hOut, hIn, ?_, ⟨evs, h1, ?_, ?_⟩, rfl⟩
  · unfold ConPty.OutPipe
    rw [hOutPipe, hOut]
    unfold NewFile
    rw [if_neg hvalid]
  · rw [hIn, cpcap_consoleSize]
    exact h3 hp1 hp2
  · intro s i o hm
    rw [hIn]
    exact (h2 s i o hm).2.2

theorem outPipe_is_read_end_witness :
    (New sampleOS 64 80 24 []).1.pipeFdOut
        = (sampleOS.createPipe ([] ++ [Call.createPipe])).1 ∧
      (New sampleOS 64 80 24 []).1.pipeFdIn
        = (sampleOS.createPipe ([] ++ [Call.createPipe])).2.1 ∧
      (New sampleOS 64 80 24 []).1.OutPipe
        = (some ⟨(New sampleOS 64 80 24 []).1.pipeFdOut, "|1"⟩, (New sampleOS 64 80 24 []).1) ∧
      (∃ evs : List Call, (New sampleOS 64 80 24 []).2.2 = [] ++ evs ∧
        evs.take 3 = [Call.createPipe, Call.createPipe,
          Call.procCreatePseudoConsole (New sampleOS 64 80 24 []).1.consoleSize
            (sampleOS.createPipe []).1 (New sampleOS 64 80 24 []).1.pipeFdIn] ∧
        ∀ s i o, Call.procCreatePseudoConsole s i o ∈ evs →
          o = (New sampleOS 64 80 24 []).1.pipeFdIn) ∧
      (New sampleOS 64 80 24 []).1.OutPipe.2.OutPipe = (New sampleOS 64 80 24 []).1.OutPipe :=
  outPipe_is_read_end sampleOS 64 80 24 [] (by decide) (by decide)

/-- C6. Only the result 0 (`S_OK`) of the native call is a success: given
that the error `Call` hands back is never nil, `resizePseudoConsole`, `Resize`
and `createPseudoConsole` return a nil error exactly when `r1 = 0`, and return
`e1` itself when `r1 != 0`. -/
theorem hresult_zero_is_success (os : OS) (w : Nat) (c : ConPty) (cols rows : Nat)
    (handle consoleSize : Nat) (ptyIn ptyOut hpCon : Handle) (tr : List Call)
    (hnn : os.CallErrNonNil) :
    (((resizePseudoConsole os handle consoleSize tr).1 = none
          ↔ (os.callResize tr handle consoleSize).1 = 0) ∧
        ((os.callResize tr handle consoleSize).1 ≠ 0 →
          (resizePseudoConsole os handle consoleSize tr).1
            = (os.callResize tr handle consoleSize).2)) ∧
      (((c.Resize os w cols rows tr).1 = none
          ↔ (os.callResize tr c.hpCon
              (uintptrAdd w (uintptrOfNat w cols) (uintptrShl w (uintptrOfNat w rows) 16))).1
            = 0) ∧
        ((os.callResize tr c.hpCon
              (uintptrAdd w (uintptrOfNat w cols) (uintptrShl w (uintptrOfNat w rows) 16))).1
            ≠ 0 →
          (c.Resize os w cols rows tr).1
            = (os.callResize tr c.hpCon
                (uintptrAdd w (uintptrOfNat w cols)
                  (uintptrShl w (uintptrOfNat w rows) 16))).2)) ∧
      (((createPseudoConsole os consoleSize ptyIn ptyOut hpCon tr).1 = none
          ↔ (os.callCreate tr consoleSize ptyIn ptyOut hpCon).1 = 0) ∧
        ((os.callCreate tr consoleSize ptyIn ptyOut hpCon).1 ≠ 0 →
          (createPseudoConsole os consoleSize ptyIn ptyOut hpCon tr).1
            = (os.callCreate tr consoleSize ptyIn ptyOut hpCon).2.1)) := by
  obtain ⟨hcreate, hresize, _⟩ := hnn
  have hres : ∀ hd sz : Nat,
      ((resizePseudoConsole os hd sz tr).1 = none ↔ (os.callResize tr hd sz).1 = 0) ∧
        ((os.callResize tr hd sz).1 ≠ 0 →
          (resizePseudoConsole os hd sz tr).1 = (os.callResize tr hd sz).2) := by
    intro hd sz
    unfold resizePseudoConsole
    simp only
    by_cases h0 : (os.callResize tr hd sz).1 = 0
    · simp [h0]
    · simp [h0, hresize tr hd sz]
  refine ⟨hres handle consoleSize, hres c.hpCon _, ?_⟩
  unfold createPseudoConsole
  simp only
  by_cases h0 : (os.callCreate tr consoleSize ptyIn ptyOut hpCon).1 = 0
  · simp [h0]
  · simp [h0, hcreate tr consoleSize ptyIn ptyOut hpCon]

theorem sampleOS_callErrNonNil : sampleOS.CallErrNonNil := by
  refine ⟨?_, ?_, ?_⟩ <;> intros <;> simp [sampleOS]

theorem hresult_zero_is_success_witness :
    sampleOS.CallErrNonNil ∧
      ((resizePseudoConsole sampleOS 99 2621560 []).1 = none
        ↔ (sampleOS.callResize [] 99 2621560).1 = 0) ∧
      ((createPseudoConsole sampleOS 1572944 10 21 0 []).1 = none
        ↔ (sampleOS.callCreate [] 1572944 10 21 0).1 = 0) :=
  ⟨sampleOS_callErrNonNil,
   (hresult_zero_is_success sampleOS 64 sampleConPty 120 40 99 2621560 10 21 0 []
      sampleOS_callErrNonNil).1.1,
   (hresult_zero_is_success sampleOS 64 sampleConPty 120 40 1572944 1572944 10 21 0 []
      sampleOS_callErrNonNil).2.2.1⟩

/-- C4. On the sample operating system `New` succeeds, the console receives
the read end 10 of the first pipe as `ptyIn` and the write end 21 of the
second pipe as `ptyOut`, both ends 10 and 11 of the first pipe are closed, and
the file `InPipe()` returns wraps 21, the write end of the second pipe, not
11, the write end of the pipe the console reads from. -/
theorem inPipe_wraps_output_write_end :
    sampleOS.createPipe [] = (10, 11, none) ∧
      sampleOS.createPipe [Call.createPipe] = (20, 21, none) ∧
      (New sampleOS 64 80 24 []).2.1 = none ∧
      (New sampleOS 64 80 24 []).2.2
        = [Call.createPipe, Call.createPipe, Call.procCreatePseudoConsole 1572944 10 21,
            Call.closeHandle 10, Call.closeHandle 11] ∧
      (New sampleOS 64 80 24 []).1.InPipe.1 = some ⟨21, "|0"⟩ ∧
      (New sampleOS 64 80 24 []).1.InPipe.1 ≠ some ⟨11, "|0"⟩ ∧
      (New sampleOS 64 80 24 []).1.OutPipe.1 = some ⟨20, "|1"⟩ := by
  decide

/-- C7. At `columns = -1`, `rows = 1` the word `New` stores is `0xFFFF` on
32-bit and on 64-bit targets: its low 16 bits are the pattern of `columns`,
but its bits 16..31 are 0, not the pattern 1 of `rows`. -/
theorem new_negative_columns_borrows_from_rows :
    (New sampleOS 32 (-1) 1 []).1.consoleSize = 65535 ∧
      (New sampleOS 64 (-1) 1 []).1.consoleSize = 65535 ∧
      (New sampleOS 64 (-1) 1 []).1.consoleSize % 65536 = uint16OfInt (-1) ∧
      (New sampleOS 64 (-1) 1 []).1.consoleSize / 65536 % 65536 = 0 ∧
      (New sampleOS 32 (-1) 1 []).1.consoleSize / 65536 % 65536 = 0 ∧
      uint16OfInt 1 = 1 ∧
      (New sampleOS 64 (-1) 1 []).1.consoleSize / 65536 % 65536 ≠ uint16OfInt 1 ∧
      (New sampleOS 32 (-1) 1 []).1.consoleSize / 65536 % 65536 ≠ uint16OfInt 1 := by
  decide

end Pty
